import Mathlib

/-!
Shallow embedding of the nemu x86 emulator core (src/emulator.rs and
src/emulator/modrm.rs) and proofs about its documented properties.

Machine integers are modelled as `Nat` with explicit `% 2^32` (resp. `% 2^64`)
where the Rust code uses wrapping arithmetic; signed byte/word reads are `Int`.
The register file (`[u32; 8]`) and memory (`Vec<u8>`) are `List Nat`; reads use
`List.getD _ 0` (in-bounds in every situation the theorems consider) and writes
use `List.set`.  Rust `unimplemented!` / `unreachable!` panic branches are
rendered as `none` in `Option`-valued functions.
-/

namespace Nemu

/-- Processor state, mirroring `struct Emulator`: eight 32-bit general purpose
registers, the eflags word, the (wrapping) instruction pointer and the byte
memory. -/
structure Emulator where
  registers : List Nat
  eflags : Nat
  eip : Nat
  memory : List Nat
  deriving Repr, DecidableEq

/-- Decoded ModRM byte, mirroring `struct ModRM` in modrm.rs.  `disp` is the
sign-extended displacement (`i32`). -/
structure ModRM where
  md : Nat
  op : Nat
  rm : Nat
  sib : Nat
  disp : Int
  deriving Repr, DecidableEq

/-- `ModRM::from_code`: md = bits 6..8, op = bits 3..6, rm = bits 0..3. -/
def ModRM.from_code (code : Nat) : ModRM :=
  { md := code / 64 % 4, op := code / 8 % 8, rm := code % 8, sib := 0, disp := 0 }

/-- `ModRM::is_reg`: mod = 0b11 means register-direct. -/
def ModRM.is_reg (m : ModRM) : Bool := m.md == 3

/-- An `i32` value reinterpreted as `u32` (Rust `as u32` on a signed value). -/
def i32ToU32 (x : Int) : Nat := (x % (2 ^ 32 : Int)).toNat

/-- 64-bit wrapping subtraction `(a as u64).wrapping_sub(b as u64)` for
`a b < 2^64`. -/
def wsub64 (a b : Nat) : Nat := (2 ^ 64 + a - b) % 2 ^ 64

/-- 32-bit wrapping subtraction `a.wrapping_sub(b)` for `a b < 2^32`. -/
def wsub32 (a b : Nat) : Nat := (2 ^ 32 + a - b) % 2 ^ 32

/-- `bit_field`'s `set_bit` on a `u32`: set or clear bit `i`. -/
def setBit32 (fl i : Nat) (b : Bool) : Nat :=
  if b then fl ||| 2 ^ i else fl &&& (2 ^ 32 - 1 - 2 ^ i)

/-- `get_register32`. -/
def get_register32 (e : Emulator) (reg : Nat) : Nat := e.registers.getD reg 0

/-- `set_register32`. -/
def set_register32 (e : Emulator) (reg v : Nat) : Emulator :=
  { e with registers := e.registers.set reg v }

/-- `get_register8`: for index < 4 the low byte; otherwise the code computes
`(register[index-4] & 0xff00) as u8` (as written in the source). -/
def get_register8 (e : Emulator) (index : Nat) : Nat :=
  if index < 4 then get_register32 e index % 2 ^ 8
  else (get_register32 e (index - 4) &&& 0xff00) % 2 ^ 8

/-- `set_register8`: for index < 4 replaces the low byte; otherwise the code
masks `register[index-4]` with 0xffff00ff and stores the result into
`register[index]` (as written in the source). -/
def set_register8 (e : Emulator) (index v : Nat) : Emulator :=
  if index < 4 then
    set_register32 e index ((get_register32 e index &&& 0xffffff00) ||| v)
  else
    set_register32 e index ((get_register32 e (index - 4) &&& 0xffff00ff) ||| (v <<< 8))

/-- `get_memory8`: a byte of memory (reads beyond the allocation give 0 here;
the theorems below only ever read in bounds). -/
def get_memory8 (e : Emulator) (address : Nat) : Nat := e.memory.getD address 0

/-- `set_memory8`. -/
def set_memory8 (e : Emulator) (address v : Nat) : Emulator :=
  { e with memory := e.memory.set address v }

/-- `get_memory32`: little-endian 32-bit load. -/
def get_memory32 (e : Emulator) (address : Nat) : Nat :=
  get_memory8 e address + 2 ^ 8 * get_memory8 e (address + 1) +
    2 ^ 16 * get_memory8 e (address + 2) + 2 ^ 24 * get_memory8 e (address + 3)

/-- `set_memory32`: little-endian 32-bit store of the four bytes of `v`. -/
def set_memory32 (e : Emulator) (address v : Nat) : Emulator :=
  set_memory8 (set_memory8 (set_memory8 (set_memory8 e address (v % 2 ^ 8))
    (address + 1) (v / 2 ^ 8 % 2 ^ 8)) (address + 2) (v / 2 ^ 16 % 2 ^ 8))
    (address + 3) (v / 2 ^ 24 % 2 ^ 8)

/-- `get_code8`: fetch the byte at `eip + index` (wrapping index arithmetic). -/
def get_code8 (e : Emulator) (index : Nat) : Nat :=
  e.memory.getD ((e.eip + index) % 2 ^ 32) 0

/-- `get_sign_code8`: the code byte as an `i8`. -/
def get_sign_code8 (e : Emulator) (index : Nat) : Int :=
  let b := get_code8 e index
  if b < 2 ^ 7 then (b : Int) else (b : Int) - 2 ^ 8

/-- `get_code32`: little-endian 32-bit fetch at `eip + index`. -/
def get_code32 (e : Emulator) (index : Nat) : Nat :=
  get_code8 e index + 2 ^ 8 * get_code8 e (index + 1) +
    2 ^ 16 * get_code8 e (index + 2) + 2 ^ 24 * get_code8 e (index + 3)

/-- `get_sign_code32`: the 32-bit code word as an `i32`. -/
def get_sign_code32 (e : Emulator) (index : Nat) : Int :=
  let v := get_code32 e index
  if v < 2 ^ 31 then (v : Int) else (v : Int) - 2 ^ 32

/-- Flag getters (`get_carry` .. `get_overflow`); bit positions from the
`CARRY_FLAG` .. `OVERFLOW_FLAG` constants. -/
def get_carry (e : Emulator) : Bool := e.eflags.testBit 0

/-- `get_zero`. -/
def get_zero (e : Emulator) : Bool := e.eflags.testBit 6

/-- `get_sign`. -/
def get_sign (e : Emulator) : Bool := e.eflags.testBit 7

/-- `get_overflow`. -/
def get_overflow (e : Emulator) : Bool := e.eflags.testBit 11

/-- `set_carry`. -/
def set_carry (e : Emulator) (b : Bool) : Emulator :=
  { e with eflags := setBit32 e.eflags 0 b }

/-- `set_zero`. -/
def set_zero (e : Emulator) (b : Bool) : Emulator :=
  { e with eflags := setBit32 e.eflags 6 b }

/-- `set_sign`. -/
def set_sign (e : Emulator) (b : Bool) : Emulator :=
  { e with eflags := setBit32 e.eflags 7 b }

/-- `set_overflow`. -/
def set_overflow (e : Emulator) (b : Bool) : Emulator :=
  { e with eflags := setBit32 e.eflags 11 b }

/-- `update_eflags_sub(v1, v2, result)`: carry = bit 32.. of result nonzero,
zero = result == 0, sign = bit 31 of result, overflow from the sign rule. -/
def update_eflags_sub (e : Emulator) (v1 v2 result : Nat) : Emulator :=
  let sign1 := v1.testBit 31
  let sign2 := v2.testBit 31
  let signr := result.testBit 31
  set_overflow
    (set_sign
      (set_zero
        (set_carry e (decide (0 < result >>> 32)))
        (decide (result = 0)))
      signr)
    (decide (sign1 ≠ sign2 ∧ sign1 ≠ signr))

/-- `get_cond_be`: below-or-equal = carry OR zero. -/
def get_cond_be (e : Emulator) : Bool := get_carry e || get_zero e

/-- `get_cond_l`: less = sign XOR overflow. -/
def get_cond_l (e : Emulator) : Bool := get_sign e != get_overflow e

/-- `get_cond_le`: less-or-equal = zero OR (sign XOR overflow). -/
def get_cond_le (e : Emulator) : Bool :=
  get_zero e || (get_sign e != get_overflow e)

/-- `parse_modrm`: read the ModRM byte (advancing eip), then the SIB byte when
`has_sib`, then a 32-bit or 8-bit displacement when `has_disp32`/`has_disp8`. -/
def parse_modrm (e : Emulator) : ModRM × Emulator :=
  let m := ModRM.from_code (get_code8 e 0)
  let e := { e with eip := (e.eip + 1) % 2 ^ 32 }
  let me :=
    if m.md ≠ 3 ∧ m.rm = 4 then
      ({ m with sib := get_code8 e 0 }, { e with eip := (e.eip + 1) % 2 ^ 32 })
    else (m, e)
  let m := me.1
  let e := me.2
  if m.md = 2 ∨ (m.md = 0 ∧ m.rm = 5) then
    ({ m with disp := get_sign_code32 e 0 }, { e with eip := (e.eip + 4) % 2 ^ 32 })
  else if m.md = 1 then
    ({ m with disp := get_sign_code8 e 0 }, { e with eip := (e.eip + 1) % 2 ^ 32 })
  else (m, e)

/-- `calc_memory_address`: effective address from a ModRM descriptor; the
`unimplemented!`/`unreachable!` branches (SIB forms `rm = 4` for mod 0-2,
and mod 3) are `none`. -/
def calc_memory_address (e : Emulator) (m : ModRM) : Option Nat :=
  if m.md = 0 then
    if m.rm = 4 then none
    else if m.rm = 5 then some (i32ToU32 m.disp)
    else some (get_register32 e m.rm)
  else if m.md = 1 then
    if m.rm = 4 then none
    else some ((get_register32 e m.rm + i32ToU32 m.disp) % 2 ^ 32)
  else if m.md = 2 then
    if m.rm = 4 then none
    else some ((get_register32 e m.rm + i32ToU32 m.disp) % 2 ^ 32)
  else none

/-- `get_rm32`: register-direct or effective-address 32-bit read. -/
def get_rm32 (e : Emulator) (m : ModRM) : Option Nat :=
  if m.is_reg then some (get_register32 e m.rm)
  else (calc_memory_address e m).map (fun a => get_memory32 e a)

/-- `set_rm32`: register-direct or effective-address 32-bit write. -/
def set_rm32 (e : Emulator) (m : ModRM) (v : Nat) : Option Emulator :=
  if m.is_reg then some (set_register32 e m.rm v)
  else (calc_memory_address e m).map (fun a => set_memory32 e a v)

/-- `get_r32`. -/
def get_r32 (e : Emulator) (m : ModRM) : Nat := get_register32 e m.op

/-- `add_rm32_r32` (opcode 0x01). -/
def add_rm32_r32 (e : Emulator) : Option Emulator :=
  let e1 := { e with eip := (e.eip + 1) % 2 ^ 32 }
  let pm := parse_modrm e1
  let r32 := get_r32 pm.2 pm.1
  (get_rm32 pm.2 pm.1).bind fun rm32 =>
    set_rm32 pm.2 pm.1 ((rm32 + r32) % 2 ^ 32)

/-- `add_rm32_imm8` (the 0x83 /0 form). -/
def add_rm32_imm8 (e : Emulator) (m : ModRM) : Option Emulator :=
  (get_rm32 e m).bind fun rm32 =>
    let imm8 := i32ToU32 (get_sign_code8 e 0)
    let e1 := { e with eip := (e.eip + 1) % 2 ^ 32 }
    set_rm32 e1 m ((rm32 + imm8) % 2 ^ 32)

/-- `sub_rm32_imm8` (the 0x83 /5 form): updates the subtraction flags then
stores the wrapped difference. -/
def sub_rm32_imm8 (e : Emulator) (m : ModRM) : Option Emulator :=
  (get_rm32 e m).bind fun rm32 =>
    let imm8 := i32ToU32 (get_sign_code8 e 0)
    let e1 := { e with eip := (e.eip + 1) % 2 ^ 32 }
    let e2 := update_eflags_sub e1 rm32 imm8 (wsub64 rm32 imm8)
    set_rm32 e2 m (wsub32 rm32 imm8)

/-- `cmp_rm32_imm8` (the 0x83 /7 form). -/
def cmp_rm32_imm8 (e : Emulator) (m : ModRM) : Option Emulator :=
  (get_rm32 e m).map fun rm32 =>
    let imm8 := i32ToU32 (get_sign_code8 e 0)
    let e1 := { e with eip := (e.eip + 1) % 2 ^ 32 }
    update_eflags_sub e1 rm32 imm8 (wsub64 rm32 imm8)

/-- `code_83`: group opcode 0x83, sub-dispatch on the ModRM reg field;
undefined selectors are `unimplemented!` (`none`). -/
def code_83 (e : Emulator) : Option Emulator :=
  let e1 := { e with eip := (e.eip + 1) % 2 ^ 32 }
  let pm := parse_modrm e1
  if pm.1.op = 0 then add_rm32_imm8 pm.2 pm.1
  else if pm.1.op = 5 then sub_rm32_imm8 pm.2 pm.1
  else if pm.1.op = 7 then cmp_rm32_imm8 pm.2 pm.1
  else none

/-- `inc_rm32` (the 0xff /0 form). -/
def inc_rm32 (e : Emulator) (m : ModRM) : Option Emulator :=
  (get_rm32 e m).bind fun v => set_rm32 e m ((v + 1) % 2 ^ 32)

/-- `dec_rm32` (the 0xff /1 form). -/
def dec_rm32 (e : Emulator) (m : ModRM) : Option Emulator :=
  (get_rm32 e m).bind fun v => set_rm32 e m (wsub32 v 1)

/-- `code_ff`: group opcode 0xff, sub-dispatch on the ModRM reg field;
undefined selectors are `unimplemented!` (`none`). -/
def code_ff (e : Emulator) : Option Emulator :=
  let e1 := { e with eip := (e.eip + 1) % 2 ^ 32 }
  let pm := parse_modrm e1
  if pm.1.op = 0 then inc_rm32 pm.2 pm.1
  else if pm.1.op = 1 then dec_rm32 pm.2 pm.1
  else none

/-- `inc_r32` (opcodes 0x40-0x47): the register index is the opcode minus
0x40. -/
def inc_r32 (e : Emulator) : Emulator :=
  let reg := get_code8 e 0 - 0x40
  let e1 := set_register32 e reg ((get_register32 e reg + 1) % 2 ^ 32)
  { e1 with eip := (e1.eip + 1) % 2 ^ 32 }

/-- `cmp_eax_imm32` (opcode 0x3d), exactly as the source is written: eip is
incremented by one, the immediate is then fetched at offset 1 from the new
eip, and `update_eflags_sub` receives `(value, eax)` with the difference
`eax - value`. -/
def cmp_eax_imm32 (e : Emulator) : Emulator :=
  let e1 := { e with eip := (e.eip + 1) % 2 ^ 32 }
  let value := get_code32 e1 1
  let eax := get_register32 e1 0
  let result := wsub64 eax value
  update_eflags_sub e1 value eax result

/-- `mov_r8_imm8` (opcodes 0xb0-0xb7): the 8-bit register index is the opcode
minus 0xb0. -/
def mov_r8_imm8 (e : Emulator) : Emulator :=
  let reg := get_code8 e 0 - 0xb0
  let value := get_code8 e 1
  let e1 := set_register8 e reg value
  { e1 with eip := (e1.eip + 2) % 2 ^ 32 }

/-- `push32`: decrement ESP by 4, store 32 bits at the new ESP. -/
def push32 (e : Emulator) (v : Nat) : Emulator :=
  let address := get_register32 e 4 - 4
  set_memory32 (set_register32 e 4 address) address v

/-- `pop32`: load 32 bits at ESP, then increment ESP by 4; returns the value
and the new state. -/
def pop32 (e : Emulator) : Nat × Emulator :=
  let address := get_register32 e 4
  let value := get_memory32 e address
  (value, set_register32 e 4 (address + 4))

/-- The handlers named by the opcode dispatch table in `instruction`. -/
inductive Opcode where
  | add_rm32_r32 | cmp_r32_rm32 | cmp_al_imm8 | cmp_eax_imm32
  | inc_r32 | push_r32 | pop_r32 | push_imm32 | push_imm8
  | jo | jno | jc | jnc | jz | jnz | jbe | jnbe | js | jns
  | jl | jnl | jle | jnle
  | code_83 | mov_rm8_r8 | mov_rm32_r32 | mov_r8_rm8 | mov_r32_rm32
  | mov_r8_imm8 | mov_r32_imm32 | ret | mov_rm32_imm32 | leave
  | call_rel32 | near_jump | short_jump | in_al_dx | out_dx_al | code_ff
  deriving Repr, DecidableEq

/-- The dispatch table of `instruction`: which handler a first byte selects;
bytes with no arm of the `match` (the `unimplemented!` branch) give `none`. -/
def decodeOpcode (c : Nat) : Option Opcode :=
  if c = 0x01 then some .add_rm32_r32
  else if c = 0x3b then some .cmp_r32_rm32
  else if c = 0x3c then some .cmp_al_imm8
  else if c = 0x3d then some .cmp_eax_imm32
  else if 0x40 ≤ c ∧ c ≤ 0x47 then some .inc_r32
  else if 0x50 ≤ c ∧ c ≤ 0x57 then some .push_r32
  else if 0x58 ≤ c ∧ c ≤ 0x5f then some .pop_r32
  else if c = 0x68 then some .push_imm32
  else if c = 0x6a then some .push_imm8
  else if c = 0x70 then some .jo
  else if c = 0x71 then some .jno
  else if c = 0x72 then some .jc
  else if c = 0x73 then some .jnc
  else if c = 0x74 then some .jz
  else if c = 0x75 then some .jnz
  else if c = 0x76 then some .jbe
  else if c = 0x77 then some .jnbe
  else if c = 0x78 then some .js
  else if c = 0x79 then some .jns
  else if c = 0x7c then some .jl
  else if c = 0x7d then some .jnl
  else if c = 0x7e then some .jle
  else if c = 0x7f then some .jnle
  else if c = 0x83 then some .code_83
  else if c = 0x88 then some .mov_rm8_r8
  else if c = 0x89 then some .mov_rm32_r32
  else if c = 0x8a then some .mov_r8_rm8
  else if c = 0x8b then some .mov_r32_rm32
  else if 0xb0 ≤ c ∧ c ≤ 0xb7 then some .mov_r8_imm8
  else if 0xb8 ≤ c ∧ c ≤ 0xbf then some .mov_r32_imm32
  else if c = 0xc3 then some .ret
  else if c = 0xc7 then some .mov_rm32_imm32
  else if c = 0xc9 then some .leave
  else if c = 0xe8 then some .call_rel32
  else if c = 0xe9 then some .near_jump
  else if c = 0xeb then some .short_jump
  else if c = 0xec then some .in_al_dx
  else if c = 0xee then some .out_dx_al
  else if c = 0xff then some .code_ff
  else none

/-- `instruction`: dispatch on the byte at eip. -/
def instruction (e : Emulator) : Option Opcode := decodeOpcode (get_code8 e 0)

/-! Concrete states used to instantiate the theorems below. -/

/-- A blank machine. -/
def E0 : Emulator :=
  { registers := [0, 0, 0, 0, 0, 0, 0, 0], eflags := 0, eip := 0, memory := [] }

/-- EAX = 0x11223344, about to execute `mov ah, 0xab` (bytes `b4 ab`). -/
def E2 : Emulator :=
  { registers := [0x11223344, 0, 0, 0, 0, 0, 0, 0], eflags := 0, eip := 0,
    memory := [0xb4, 0xab] }

/-- EAX = 0x80000000, about to execute `cmp eax, imm32` (opcode 0x3d) with
every following byte equal to 1. -/
def E3 : Emulator :=
  { registers := [0x80000000, 0, 0, 0, 0, 0, 0, 0], eflags := 0, eip := 0,
    memory := [0x3d, 1, 1, 1, 1, 1] }

/-- Same situation as `E3`, used for the overflow-flag evaluation: both the
bytes 1-4 after the opcode (the immediate of the claim) and the bytes 2-5
(the ones the code actually reads) decode to 0x01010101. -/
def E4 : Emulator :=
  { registers := [0x80000000, 0, 0, 0, 0, 0, 0, 0], eflags := 0, eip := 0,
    memory := [0x3d, 1, 1, 1, 1, 1] }

/-- EAX = 0x12345678, so bits 8-15 of register 0 hold 0x56. -/
def E5 : Emulator :=
  { registers := [0x12345678, 0, 0, 0, 0, 0, 0, 0], eflags := 0, eip := 0,
    memory := [] }

/-- EAX = 1, about to execute `add eax, eax` (bytes `01 c0`). -/
def E6 : Emulator :=
  { registers := [1, 0, 0, 0, 0, 0, 0, 0], eflags := 0, eip := 0,
    memory := [0x01, 0xc0] }

/-- The state `add_rm32_r32` produces from `E6`. -/
def E6r : Emulator :=
  { registers := [2, 0, 0, 0, 0, 0, 0, 0], eflags := 0, eip := 2,
    memory := [0x01, 0xc0] }

/-- Flags word 0x80: sign set, overflow/zero/carry clear. -/
def E7 : Emulator :=
  { registers := [0, 0, 0, 0, 0, 0, 0, 0], eflags := 0x80, eip := 0,
    memory := [] }

/-- ESP = 8 with eight bytes of zeroed memory. -/
def E8 : Emulator :=
  { registers := [0, 0, 0, 0, 8, 0, 0, 0], eflags := 0, eip := 0,
    memory := [0, 0, 0, 0, 0, 0, 0, 0] }

/-- About to execute group opcode 0x83 (or 0xff) whose ModRM byte 0xd0 has
reg-field selector 2, which neither group defines. -/
def E9 : Emulator :=
  { registers := [0, 0, 0, 0, 0, 0, 0, 0], eflags := 0, eip := 0,
    memory := [0x83, 0xd0, 0] }

/-- A dummy ModRM descriptor (register-direct). -/
def M0 : ModRM := { md := 3, op := 0, rm := 0, sib := 0, disp := 0 }

/-- A ModRM descriptor with mode 0 and rm = 4: the SIB addressing form. -/
def M94 : ModRM := { md := 0, op := 2, rm := 4, sib := 0, disp := 0 }

/-! Helper lemmas. -/

/-- Bit `i` of the clear-mask `!(1 << i)` (as a `u32`) is clear. -/
theorem mask_testBit_self (i : Nat) (hi : i < 32) :
    (2 ^ 32 - 1 - 2 ^ i : Nat).testBit i = false := by
  have h : ∀ k, k < 32 → ((2 ^ 32 - 1 - 2 ^ k : Nat).testBit k = false) := by decide
  exact h i hi

/-- Every other low bit of the clear-mask `!(1 << i)` is set. -/
theorem mask_testBit_ne (i j : Nat) (hi : i < 32) (hj : j < 32) (hne : i ≠ j) :
    (2 ^ 32 - 1 - 2 ^ i : Nat).testBit j = true := by
  have h : ∀ k, k < 32 → ∀ l, l < 32 → k ≠ l →
      ((2 ^ 32 - 1 - 2 ^ k : Nat).testBit l = true) := by decide
  exact h i hi j hj hne

/-- `set_bit` writes the requested bit. -/
theorem testBit_setBit32_self (fl i : Nat) (b : Bool) (hi : i < 32) :
    (setBit32 fl i b).testBit i = b := by
  cases b with
  | false =>
    rw [show setBit32 fl i false = fl &&& (2 ^ 32 - 1 - 2 ^ i) from rfl, Nat.testBit_and,
      mask_testBit_self i hi, Bool.and_false]
  | true =>
    rw [show setBit32 fl i true = fl ||| 2 ^ i from rfl, Nat.testBit_or,
      Nat.testBit_two_pow_self, Bool.or_true]

/-- `set_bit` leaves every other low bit alone. -/
theorem testBit_setBit32_ne (fl i j : Nat) (b : Bool) (hi : i < 32) (hj : j < 32)
    (hne : j ≠ i) : (setBit32 fl i b).testBit j = fl.testBit j := by
  cases b with
  | false =>
    rw [show setBit32 fl i false = fl &&& (2 ^ 32 - 1 - 2 ^ i) from rfl, Nat.testBit_and,
      mask_testBit_ne i j hi hj (Ne.symm hne), Bool.and_true]
  | true =>
    rw [show setBit32 fl i true = fl ||| 2 ^ i from rfl, Nat.testBit_or,
      Nat.testBit_two_pow_of_ne (fun h => hne h.symm), Bool.or_false]

/-- What each low bit of the flags word looks like after `update_eflags_sub`. -/
theorem update_eflags_sub_testBit (e : Emulator) (v1 v2 r j : Nat) (hj : j < 32) :
    (update_eflags_sub e v1 v2 r).eflags.testBit j =
      if j = 11 then decide (v1.testBit 31 ≠ v2.testBit 31 ∧ v1.testBit 31 ≠ r.testBit 31)
      else if j = 7 then r.testBit 31
      else if j = 6 then decide (r = 0)
      else if j = 0 then decide (0 < r >>> 32)
      else e.eflags.testBit j := by
  simp only [update_eflags_sub, set_carry, set_zero, set_sign, set_overflow]
  by_cases h11 : j = 11
  · subst h11
    rw [testBit_setBit32_self _ _ _ (by norm_num)]
    simp
  · rw [testBit_setBit32_ne _ _ _ _ (by norm_num) hj h11, if_neg h11]
    by_cases h7 : j = 7
    · subst h7
      rw [testBit_setBit32_self _ _ _ (by norm_num)]
      simp
    · rw [testBit_setBit32_ne _ _ _ _ (by norm_num) hj h7, if_neg h7]
      by_cases h6 : j = 6
      · subst h6
        rw [testBit_setBit32_self _ _ _ (by norm_num)]
        simp
      · rw [testBit_setBit32_ne _ _ _ _ (by norm_num) hj h6, if_neg h6]
        by_cases h0 : j = 0
        · subst h0
          rw [testBit_setBit32_self _ _ _ (by norm_num)]
          simp
        · rw [testBit_setBit32_ne _ _ _ _ (by norm_num) hj h0, if_neg h0]

/-- `List.set` then `getD` at the written (in-range) index. -/
theorem getD_set_self {l : List Nat} {i v : Nat} (h : i < l.length) :
    (l.set i v).getD i 0 = v := by
  simp [List.getD_eq_getElem?_getD, List.getElem?_set_self, h]

/-- `List.set` then `getD` at a different index. -/
theorem getD_set_ne {l : List Nat} {i j v : Nat} (h : i ≠ j) :
    (l.set i v).getD j 0 = l.getD j 0 := by
  simp [List.getD_eq_getElem?_getD, List.getElem?_set_ne h]

/-- Reading back the four bytes written by a 32-bit little-endian store. -/
theorem getD_four_set (l : List Nat) (a b0 b1 b2 b3 : Nat) (h : a + 3 < l.length) :
    ((((l.set a b0).set (a + 1) b1).set (a + 2) b2).set (a + 3) b3).getD a 0 = b0 ∧
    ((((l.set a b0).set (a + 1) b1).set (a + 2) b2).set (a + 3) b3).getD (a + 1) 0 = b1 ∧
    ((((l.set a b0).set (a + 1) b1).set (a + 2) b2).set (a + 3) b3).getD (a + 2) 0 = b2 ∧
    ((((l.set a b0).set (a + 1) b1).set (a + 2) b2).set (a + 3) b3).getD (a + 3) 0 = b3 := by
  have h0 : a < l.length := by omega
  have h1 : a + 1 < (l.set a b0).length := by simp only [List.length_set]; omega
  have h2 : a + 2 < ((l.set a b0).set (a + 1) b1).length := by
    simp only [List.length_set]; omega
  have h3 : a + 3 < (((l.set a b0).set (a + 1) b1).set (a + 2) b2).length := by
    simp only [List.length_set]; omega
  refine ⟨?_, ?_, ?_, ?_⟩
  · rw [getD_set_ne (by omega), getD_set_ne (by omega), getD_set_ne (by omega),
      getD_set_self h0]
  · rw [getD_set_ne (by omega), getD_set_ne (by omega), getD_set_self h1]
  · rw [getD_set_ne (by omega), getD_set_self h2]
  · rw [getD_set_self h3]

/-- `parse_modrm` never changes the flags word. -/
theorem parse_modrm_eflags (e : Emulator) : (parse_modrm e).2.eflags = e.eflags := by
  unfold parse_modrm
  dsimp only
  repeat' split
  all_goals rfl

/-- `set_rm32` never changes the flags word. -/
theorem set_rm32_eflags {e : Emulator} {m : ModRM} {v : Nat} {e' : Emulator}
    (h : set_rm32 e m v = some e') : e'.eflags = e.eflags := by
  unfold set_rm32 at h
  split at h
  · cases h
    rfl
  · cases hc : calc_memory_address e m with
    | none => rw [hc] at h; cases h
    | some a =>
      rw [hc] at h
      cases h
      rfl

/-- `inc_rm32` never changes the flags word. -/
theorem inc_rm32_eflags {e : Emulator} {m : ModRM} {e' : Emulator}
    (h : inc_rm32 e m = some e') : e'.eflags = e.eflags := by
  simp only [inc_rm32] at h
  rcases Option.bind_eq_some.mp h with ⟨v, _, hset⟩
  exact set_rm32_eflags hset

/-- `dec_rm32` never changes the flags word. -/
theorem dec_rm32_eflags {e : Emulator} {m : ModRM} {e' : Emulator}
    (h : dec_rm32 e m = some e') : e'.eflags = e.eflags := by
  simp only [dec_rm32] at h
  rcases Option.bind_eq_some.mp h with ⟨v, _, hset⟩
  exact set_rm32_eflags hset

/-! The claims. -/

/-- C1: for 32-bit `a`, `b`, `update_eflags_sub` applied to `a`, `b` and the
widened difference sets zero iff `a = b`, carry iff `a < b` (unsigned), and
sign to bit 31 of `(a - b) mod 2^32`. -/
theorem c1_sub_flags (e : Emulator) (a b : Nat) (ha : a < 2 ^ 32) (hb : b < 2 ^ 32) :
    ((update_eflags_sub e a b (wsub64 a b)).eflags.testBit 6 = true ↔ a = b) ∧
    ((update_eflags_sub e a b (wsub64 a b)).eflags.testBit 0 = true ↔ a < b) ∧
    (update_eflags_sub e a b (wsub64 a b)).eflags.testBit 7 = (wsub32 a b).testBit 31 := by
  refine ⟨?_, ?_, ?_⟩
  · rw [update_eflags_sub_testBit _ _ _ _ _ (by norm_num)]
    norm_num [wsub64]
    omega
  · rw [update_eflags_sub_testBit _ _ _ _ _ (by norm_num)]
    norm_num [wsub64, Nat.shiftRight_eq_div_pow]
    omega
  · rw [update_eflags_sub_testBit _ _ _ _ _ (by norm_num)]
    norm_num
    have hmod : wsub32 a b = wsub64 a b % 2 ^ 32 := by
      unfold wsub32 wsub64
      omega
    rw [hmod, Nat.testBit_mod_two_pow]
    norm_num

/-- C1 witness at `a = 5`, `b = 3`. -/
theorem c1_sub_flags_witness :
    ((update_eflags_sub E0 5 3 (wsub64 5 3)).eflags.testBit 6 = true ↔ (5 : Nat) = 3) ∧
    ((update_eflags_sub E0 5 3 (wsub64 5 3)).eflags.testBit 0 = true ↔ (5 : Nat) < 3) ∧
    (update_eflags_sub E0 5 3 (wsub64 5 3)).eflags.testBit 7 = (wsub32 5 3).testBit 31 :=
  c1_sub_flags E0 5 3 (by norm_num) (by norm_num)

/-- C2: executing `mov ah, 0xab` (bytes `b4 ab`) on `E2` leaves register 0
entirely unchanged (the claim demands its bits 8-15 become 0xab, i.e. value
0x1122ab44) and instead clobbers register 4 with the moved byte. -/
theorem c2_set_register8_high_bug :
    (mov_r8_imm8 E2).registers.getD 0 0 = 0x11223344 ∧
    (mov_r8_imm8 E2).registers.getD 0 0 ≠ 0x1122ab44 ∧
    (mov_r8_imm8 E2).registers.getD 4 0 = 0x1122ab44 := by
  decide

/-- C3: `cmp_eax_imm32` advances the program counter by exactly 1, not by the
5 bytes of its encoding. -/
theorem c3_cmp_eax_imm32_eip_bug (e : Emulator) :
    (cmp_eax_imm32 e).eip = (e.eip + 1) % 2 ^ 32 := rfl

/-- C4: on `E4` (EAX = 0x80000000, immediate 0x01010101) the claim's overflow
rule with a = EAX, b = imm gives true, but `cmp_eax_imm32` leaves the overflow
flag false, because it passes `(imm, eax)` to `update_eflags_sub` while the
widened result is `eax - imm`. -/
theorem c4_cmp_eax_imm32_overflow_bug :
    (cmp_eax_imm32 E4).eflags.testBit 11 = false ∧
    (get_register32 E4 0).testBit 31 ≠ (0x01010101 : Nat).testBit 31 ∧
    (get_register32 E4 0).testBit 31 ≠
      (wsub32 (get_register32 E4 0) 0x01010101).testBit 31 := by
  decide

/-- C5: with bits 8-15 of register 0 holding 0x56, `get_register8 4` (the AH
view) returns 0, not the second byte. -/
theorem c5_get_register8_high_bug :
    get_register8 E5 4 = 0 ∧ get_register32 E5 0 / 2 ^ 8 % 2 ^ 8 = 0x56 := by
  decide

/-- C7: with sign set, overflow and zero clear, jump-if-less and
jump-if-less-or-equal conditions hold, and jump-if-below-or-equal reduces to
the carry flag. -/
theorem c7_cond_jump_tiebreak (e : Emulator) (hs : get_sign e = true)
    (ho : get_overflow e = false) (hz : get_zero e = false) :
    get_cond_l e = true ∧ get_cond_le e = true ∧ get_cond_be e = get_carry e := by
  simp [get_cond_l, get_cond_le, get_cond_be, hs, ho, hz]

/-- C7 witness at flags word 0x80. -/
theorem c7_cond_jump_tiebreak_witness :
    get_cond_l E7 = true ∧ get_cond_le E7 = true ∧ get_cond_be E7 = get_carry E7 :=
  c7_cond_jump_tiebreak E7 (by decide) (by decide) (by decide)

/-- C10: `update_eflags_sub` changes no bit of the flags word other than 0
(carry), 6 (zero), 7 (sign) and 11 (overflow), and hence neither does the
`cmp_eax_imm32` handler. -/
theorem c10_flag_frame (e : Emulator) (v1 v2 r j : Nat) (hj : j < 32)
    (j0 : j ≠ 0) (j6 : j ≠ 6) (j7 : j ≠ 7) (j11 : j ≠ 11) :
    (update_eflags_sub e v1 v2 r).eflags.testBit j = e.eflags.testBit j ∧
    (cmp_eax_imm32 e).eflags.testBit j = e.eflags.testBit j := by
  constructor
  · rw [update_eflags_sub_testBit _ _ _ _ _ hj, if_neg j11, if_neg j7, if_neg j6, if_neg j0]
  · show (update_eflags_sub { e with eip := (e.eip + 1) % 2 ^ 32 } _ _ _).eflags.testBit j = _
    rw [update_eflags_sub_testBit _ _ _ _ _ hj, if_neg j11, if_neg j7, if_neg j6, if_neg j0]

/-- C10 witness at bit 1. -/
theorem c10_flag_frame_witness :
    (update_eflags_sub E0 7 9 123).eflags.testBit 1 = E0.eflags.testBit 1 ∧
    (cmp_eax_imm32 E0).eflags.testBit 1 = E0.eflags.testBit 1 :=
  c10_flag_frame E0 7 9 123 1 (by norm_num) (by norm_num) (by norm_num) (by norm_num)
    (by norm_num)

/-- C6: the add instruction (opcode 0x01), register increment (0x40-0x47),
the 0x83 /0 add-immediate form, and both 0xff forms (increment and decrement
through rm32) leave the whole flags word unchanged. -/
theorem c6_add_inc_dec_preserve_eflags (e e' : Emulator) (m : ModRM) :
    (add_rm32_r32 e = some e' → e'.eflags = e.eflags) ∧
    (inc_r32 e).eflags = e.eflags ∧
    (add_rm32_imm8 e m = some e' → e'.eflags = e.eflags) ∧
    (code_ff e = some e' → e'.eflags = e.eflags) := by
  refine ⟨?_, rfl, ?_, ?_⟩
  · intro h
    simp only [add_rm32_r32] at h
    rcases Option.bind_eq_some.mp h with ⟨rm32, _, hset⟩
    exact (set_rm32_eflags hset).trans (parse_modrm_eflags _)
  · intro h
    simp only [add_rm32_imm8] at h
    rcases Option.bind_eq_some.mp h with ⟨rm32, _, hset⟩
    have he := set_rm32_eflags hset
    exact he
  · intro h
    simp only [code_ff] at h
    split at h
    · exact (inc_rm32_eflags h).trans (parse_modrm_eflags _)
    · split at h
      · exact (dec_rm32_eflags h).trans (parse_modrm_eflags _)
      · exact Option.noConfusion h

/-- C6 witness: `add eax, eax` on `E6`. -/
theorem c6_add_inc_dec_preserve_eflags_witness : E6r.eflags = E6.eflags :=
  (c6_add_inc_dec_preserve_eflags E6 E6r M0).1 (by decide)

/-- C8: with ESP at least 4 and the four bytes below ESP inside memory, a
push of a 32-bit value followed by a pop returns that value and restores
ESP. -/
theorem c8_push_pop_roundtrip (e : Emulator) (v esp : Nat)
    (hreg : e.registers.length = 8) (hesp : get_register32 e 4 = esp)
    (h4 : 4 ≤ esp) (hmem : esp ≤ e.memory.length) (hv : v < 2 ^ 32) :
    (pop32 (push32 e v)).1 = v ∧ get_register32 (pop32 (push32 e v)).2 4 = esp := by
  have hesp' : e.registers.getD 4 0 = esp := hesp
  have hPreg : (push32 e v).registers = e.registers.set 4 (esp - 4) := by
    dsimp only [push32, set_memory32, set_memory8, set_register32, get_register32]
    rw [hesp']
  have hPmem : (push32 e v).memory =
      (((e.memory.set (esp - 4) (v % 2 ^ 8)).set (esp - 4 + 1) (v / 2 ^ 8 % 2 ^ 8)).set
        (esp - 4 + 2) (v / 2 ^ 16 % 2 ^ 8)).set (esp - 4 + 3) (v / 2 ^ 24 % 2 ^ 8) := by
    dsimp only [push32, set_memory32, set_memory8, set_register32, get_register32]
    rw [hesp']
  have hPesp : get_register32 (push32 e v) 4 = esp - 4 := by
    show (push32 e v).registers.getD 4 0 = esp - 4
    rw [hPreg, getD_set_self (by omega)]
  obtain ⟨g0, g1, g2, g3⟩ := getD_four_set e.memory (esp - 4) (v % 2 ^ 8)
    (v / 2 ^ 8 % 2 ^ 8) (v / 2 ^ 16 % 2 ^ 8) (v / 2 ^ 24 % 2 ^ 8) (by omega)
  constructor
  · dsimp only [pop32]
    rw [hPesp]
    dsimp only [get_memory32, get_memory8]
    rw [hPmem, g0, g1, g2, g3]
    omega
  · dsimp only [pop32, get_register32, set_register32]
    rw [hPreg]
    have hin : (e.registers.set 4 (esp - 4)).getD 4 0 = esp - 4 :=
      getD_set_self (by omega)
    rw [hin, getD_set_self (by simp only [List.length_set]; omega)]
    omega

/-- C8 witness: push then pop of 0xdeadbeef at ESP = 8. -/
theorem c8_push_pop_roundtrip_witness :
    (pop32 (push32 E8 0xdeadbeef)).1 = 0xdeadbeef ∧
    get_register32 (pop32 (push32 E8 0xdeadbeef)).2 4 = 8 :=
  c8_push_pop_roundtrip E8 0xdeadbeef 8 (by decide) (by decide) (by decide)
    (by decide) (by decide)

/-- C9: bytes without a dispatch entry (0x00, 0x0f, 0x90), group selectors
outside the defined set for 0x83 and 0xff, and the SIB addressing forms
(mode 0-2 with rm = 4) all reach a panic (`none`), never a default. -/
theorem c9_fatal_on_unsupported (e : Emulator) (m : ModRM) :
    decodeOpcode 0x00 = none ∧ decodeOpcode 0x0f = none ∧ decodeOpcode 0x90 = none ∧
    ((parse_modrm { e with eip := (e.eip + 1) % 2 ^ 32 }).1.op ≠ 0 →
      (parse_modrm { e with eip := (e.eip + 1) % 2 ^ 32 }).1.op ≠ 5 →
      (parse_modrm { e with eip := (e.eip + 1) % 2 ^ 32 }).1.op ≠ 7 →
      code_83 e = none) ∧
    ((parse_modrm { e with eip := (e.eip + 1) % 2 ^ 32 }).1.op ≠ 0 →
      (parse_modrm { e with eip := (e.eip + 1) % 2 ^ 32 }).1.op ≠ 1 →
      code_ff e = none) ∧
    (m.md < 3 → m.rm = 4 → calc_memory_address e m = none) := by
  refine ⟨by decide, by decide, by decide, ?_, ?_, ?_⟩
  · intro h0 h5 h7
    simp only [code_83]
    rw [if_neg h0, if_neg h5, if_neg h7]
  · intro h0 h1
    simp only [code_ff]
    rw [if_neg h0, if_neg h1]
  · intro hmd hrm
    unfold calc_memory_address
    by_cases h0 : m.md = 0
    · simp [h0, hrm]
    · by_cases h1 : m.md = 1
      · simp [h0, h1, hrm]
      · by_cases h2 : m.md = 2
        · simp [h0, h1, h2, hrm]
        · simp [h0, h1, h2]

/-- C9 witness: selector 2 for both groups, and the mode-0 rm-4 SIB form. -/
theorem c9_fatal_on_unsupported_witness :
    code_83 E9 = none ∧ code_ff E9 = none ∧ calc_memory_address E9 M94 = none :=
  ⟨(c9_fatal_on_unsupported E9 M94).2.2.2.1 (by decide) (by decide) (by decide),
   (c9_fatal_on_unsupported E9 M94).2.2.2.2.1 (by decide) (by decide),
   (c9_fatal_on_unsupported E9 M94).2.2.2.2.2 (by decide) (by decide)⟩

end Nemu
